import Mathlib

/-!
Shallow embedding of `scripts/waste_classifier.py`.

The script loads a Keras model, preprocesses one image, runs one forward
pass and prints a JSON result.  External library behaviour (the
filesystem, `load_model`, `image.load_img`, `model.predict`) is modelled
by an abstract `World`; everything the script itself computes
(normalization, `np.argmax` selection, result-record construction,
precondition checks, exception handling) is embedded as executable Lean
functions.

Conventions:
* Python floats are modelled as `ℚ`.
* A raised exception is an `Except.error` carrying the exception message.
* Printed output is modelled structurally: `Line.usage` is the usage
  string, `Line.json r` is the single-line JSON serialization of the
  Python dict denoted by `r` (`Result.success c conf all` denotes
  `{"success": true, "category": c, "confidence": conf,
  "all_predictions": all}` and `Result.failure e` denotes
  `{"success": false, "error": e}`).
* Calls into the external library are recorded as an `Effect` trace so
  that "returns without loading the model / touching the image" is a
  provable statement about the trace.
-/

namespace WasteClassifierSpec

/-- `CATEGORIES = ["Paper", "Glass", "Metal", "Plastic", "Trash"]` from the
script (line 11). -/
def CATEGORIES : List String := ["Paper", "Glass", "Metal", "Plastic", "Trash"]

/-- An image as returned by `image.load_img(..., target_size=(224, 224))`:
a 224×224 grid of RGB pixels, each channel an 8-bit value (0..255). -/
def Img : Type := Fin 224 → Fin 224 → Fin 3 → Fin 256

/-- The preprocessed tensor: batch dimension of size 1 prepended by
`np.expand_dims(img_array, axis=0)`, entries rational. -/
def Tensor : Type := Fin 1 → Fin 224 → Fin 224 → Fin 3 → ℚ

/-- `img_to_array` then `np.expand_dims` then `/ 255.0`: every entry of the
tensor is the corresponding raw pixel value divided by 255. -/
def preprocessTensor (img : Img) : Tensor :=
  fun _ h w c => (img h w c : ℚ) / 255

/-- One entry of the `all_predictions` list:
`{"category": ..., "confidence": ...}`. -/
structure Pred where
  category : String
  confidence : ℚ
deriving DecidableEq, Repr

/-- The dict returned by `WasteClassifier.classify`. -/
inductive Result where
  | success (category : String) (confidence : ℚ) (all_predictions : List Pred)
  | failure (error : String)
deriving DecidableEq, Repr

/-- The `all_predictions` field of a result (empty for failures). -/
def Result.allPreds : Result → List Pred
  | .success _ _ all => all
  | .failure _ => []

/-- `max` of `x :: xs`, as computed left to right. -/
def listMax (x : ℚ) (xs : List ℚ) : ℚ := xs.foldl max x

/-- `np.argmax` on a 1-D array: the index of the first occurrence of the
maximum value; raises (`none`) on an empty array. -/
def npArgmax : List ℚ → Option Nat
  | [] => none
  | x :: xs => some ((x :: xs).indexOf (listMax x xs))

/-- The `for i, score in enumerate(predictions[0])` loop building
`all_predictions`; `CATEGORIES[i]` raises `IndexError` once `i`
reaches 5. -/
def buildAllPredictions : Nat → List ℚ → Except String (List Pred)
  | _, [] => .ok []
  | i, score :: rest =>
    match CATEGORIES.get? i with
    | none => .error "list index out of range"
    | some c =>
      match buildAllPredictions (i + 1) rest with
      | .error e => .error e
      | .ok t => .ok (⟨c, score⟩ :: t)

/-- The body of `classify` after `predictions[0]` has been obtained:
argmax, `CATEGORIES[top_prediction_idx]`, the `all_predictions` loop and
the result dict; any raised exception becomes a `failure` via the
`except` clause. -/
def classifyFromPreds (row : List ℚ) : Result :=
  match npArgmax row with
  | none => .failure "attempt to get argmax of an empty sequence"
  | some idx =>
    let score := row.getD idx 0
    match CATEGORIES.get? idx with
    | none => .failure "list index out of range"
    | some topCat =>
      match buildAllPredictions 0 row with
      | .error e => .failure e
      | .ok all => .success topCat score all

/-- The external environment: the filesystem (`os.path.exists`), Keras
`load_model`, `image.load_img` (resizing to 224×224) and
`model.predict`.  Each fallible call returns `Except.error msg` when the
library raises an exception with message `msg`.  `predict` returns the
batch of prediction rows (`predictions`); the script uses
`predictions[0]`. -/
structure World (Model : Type) where
  pathExists : String → Bool
  loadModel : String → Except String Model
  loadImg : String → Except String Img
  predict : Model → Tensor → Except String (List (List ℚ))

/-- Calls made into the external library, in order. -/
inductive Effect where
  | loadModelCall (path : String)
  | loadImgCall (path : String)
  | predictCall
deriving DecidableEq, Repr

/-- `WasteClassifier.preprocess_image`: load (and resize) the image, then
convert to an array, add the batch dimension and normalize. -/
def preprocess_image {Model : Type} (w : World Model) (imgPath : String) :
    Except String Tensor :=
  (w.loadImg imgPath).map preprocessTensor

/-- `WasteClassifier.classify`: preprocess, predict, build the result
dict; the `try`/`except` turns any exception raised inside into a
`failure` record.  Also returns the trace of external calls. -/
def classify {Model : Type} (w : World Model) (m : Model) (imgPath : String) :
    Result × List Effect :=
  match preprocess_image w imgPath with
  | .error e => (.failure e, [.loadImgCall imgPath])
  | .ok t =>
    match w.predict m t with
    | .error e => (.failure e, [.loadImgCall imgPath, .predictCall])
    | .ok preds =>
      match preds with
      | [] => (.failure "index 0 is out of bounds for axis 0 with size 0",
               [.loadImgCall imgPath, .predictCall])
      | row :: _ => (classifyFromPreds row, [.loadImgCall imgPath, .predictCall])

/-- What one invocation prints: the usage line or a single-line JSON
object. -/
inductive Line where
  | usage
  | json (r : Result)
deriving DecidableEq, Repr

/-- How one invocation ends: it prints one line and returns normally, or
an uncaught exception propagates (traceback, non-zero exit). -/
inductive Outcome where
  | printed (l : Line)
  | crashed (error : String)
deriving DecidableEq, Repr

/-- `main`: argument-count check, the two `os.path.exists` precondition
checks, then `WasteClassifier(model_path)` (whose exceptions are NOT
caught) and `classify`.  `argv` is `sys.argv`, so `argv[0]` is the
script name. -/
def main {Model : Type} (argv : List String) (w : World Model) :
    Outcome × List Effect :=
  if argv.length ≠ 3 then (.printed .usage, [])
  else
    let model_path := argv.getD 1 ""
    let image_path := argv.getD 2 ""
    if ¬ w.pathExists model_path then
      (.printed (.json (.failure ("Model not found: " ++ model_path))), [])
    else if ¬ w.pathExists image_path then
      (.printed (.json (.failure ("Image not found: " ++ image_path))), [])
    else
      match w.loadModel model_path with
      | .error e => (.crashed e, [.loadModelCall model_path])
      | .ok m =>
        let cr := classify w m image_path
        (.printed (.json cr.1), .loadModelCall model_path :: cr.2)

/-! ## Helper lemmas -/

theorem le_listMax (x : ℚ) (xs : List ℚ) : x ≤ listMax x xs := by
  induction xs generalizing x with
  | nil => exact le_refl x
  | cons y t ih =>
    have h1 : x ≤ max x y := le_max_left x y
    have h2 : max x y ≤ listMax (max x y) t := ih (max x y)
    simpa [listMax, List.foldl_cons] using le_trans h1 h2

theorem mem_le_listMax {y : ℚ} (x : ℚ) {xs : List ℚ} (hy : y ∈ xs) :
    y ≤ listMax x xs := by
  induction xs generalizing x with
  | nil => cases hy
  | cons z t ih =>
    rcases List.mem_cons.mp hy with hz | ht
    · subst hz
      have h1 : y ≤ max x y := le_max_right x y
      have h2 : max x y ≤ listMax (max x y) t := le_listMax (max x y) t
      simpa [listMax, List.foldl_cons] using le_trans h1 h2
    · simpa [listMax, List.foldl_cons] using ih (max x z) ht

theorem listMax_mem (x : ℚ) (xs : List ℚ) : listMax x xs ∈ x :: xs := by
  induction xs generalizing x with
  | nil => simp [listMax]
  | cons z t ih =>
    have h := ih (max x z)
    rcases List.mem_cons.mp h with h1 | h2
    · rcases max_choice x z with hx | hz
      · simp only [listMax, List.foldl_cons]
        rw [show (t.foldl max (max x z)) = listMax (max x z) t from rfl, h1, hx]
        exact List.mem_cons_self x (z :: t)
      · simp only [listMax, List.foldl_cons]
        rw [show (t.foldl max (max x z)) = listMax (max x z) t from rfl, h1, hz]
        exact List.mem_cons_of_mem x (List.mem_cons_self z t)
    · simp only [listMax, List.foldl_cons]
      exact List.mem_cons_of_mem x (List.mem_cons_of_mem z h2)

theorem get_ne_of_lt_indexOf {α : Type} [DecidableEq α] {a : α} :
    ∀ {l : List α} {j : Nat} (hj : j < l.length),
      j < l.indexOf a → l.get ⟨j, hj⟩ ≠ a := by
  intro l
  induction l with
  | nil => intro j hj _; cases hj
  | cons b t ih =>
    intro j hj hlt
    by_cases hba : b = a
    · subst hba
      rw [List.indexOf_cons_self] at hlt
      cases hlt
    · cases j with
      | zero => simpa using hba
      | succ j =>
        rw [List.indexOf_cons_ne t hba] at hlt
        exact ih (Nat.lt_of_succ_lt_succ hj) (Nat.lt_of_succ_lt_succ hlt)

/-- Characterization of `np.argmax`: the returned index is in range, the
value there is maximal, and every earlier value is strictly smaller
(first occurrence of the maximum). -/
theorem npArgmax_spec {row : List ℚ} {k : Nat} (h : npArgmax row = some k) :
    k < row.length ∧
    (∀ j, j < row.length → row.getD j 0 ≤ row.getD k 0) ∧
    (∀ j, j < k → row.getD j 0 < row.getD k 0) := by
  match row with
  | [] => cases h
  | x :: xs =>
    simp only [npArgmax, Option.some.injEq] at h
    set m := listMax x xs with hm
    have hmem : m ∈ x :: xs := listMax_mem x xs
    have hklt : k < (x :: xs).length := by
      rw [← h]; exact List.indexOf_lt_length.mpr hmem
    have hgetk : (x :: xs).get ⟨k, hklt⟩ = m := by
      subst h; exact List.indexOf_get _
    have hmax : ∀ j, j < (x :: xs).length →
        (x :: xs).getD j 0 ≤ (x :: xs).getD k 0 := by
      intro j hj
      rw [List.getD_eq_getElem _ _ hj, List.getD_eq_getElem _ _ hklt]
      have hjm : (x :: xs)[j] ∈ x :: xs := List.getElem_mem hj
      have hk' : (x :: xs)[k] = m := by
        simpa [List.get_eq_getElem] using hgetk
      rw [hk']
      rcases List.mem_cons.mp hjm with h1 | h2
      · rw [h1]; exact le_listMax x xs
      · exact mem_le_listMax x h2
    refine ⟨hklt, hmax, ?_⟩
    intro j hjk
    have hj : j < (x :: xs).length := lt_trans hjk hklt
    have hne : (x :: xs).get ⟨j, hj⟩ ≠ m := by
      apply get_ne_of_lt_indexOf hj
      rw [h]; exact hjk
    have hle := hmax j hj
    rw [List.getD_eq_getElem _ _ hj, List.getD_eq_getElem _ _ hklt] at hle ⊢
    have hk' : (x :: xs)[k] = m := by
      simpa [List.get_eq_getElem] using hgetk
    rw [hk'] at hle ⊢
    exact lt_of_le_of_ne hle (by simpa [List.get_eq_getElem] using hne)

/-- Characterization of the `all_predictions` loop: on success, the list
pairs each score with `CATEGORIES[i + j]` in order, and (unless the row
is empty) all indices stayed below 5. -/
theorem buildAllPredictions_ok :
    ∀ (i : Nat) (row : List ℚ) (all : List Pred),
      buildAllPredictions i row = .ok all →
      (row = [] ∨ i + row.length ≤ 5) ∧
      all = (List.range row.length).map
        (fun j => Pred.mk (CATEGORIES.getD (i + j) "") (row.getD j 0)) := by
  intro i row
  induction row generalizing i with
  | nil =>
    intro all h
    simp only [buildAllPredictions] at h
    cases h
    exact ⟨Or.inl rfl, by simp⟩
  | cons s rest ih =>
    intro all h
    simp only [buildAllPredictions] at h
    cases hc : CATEGORIES.get? i with
    | none => rw [hc] at h; cases h
    | some c =>
      rw [hc] at h
      cases hb : buildAllPredictions (i + 1) rest with
      | error e => rw [hb] at h; cases h
      | ok t =>
        rw [hb] at h
        cases h
        obtain ⟨hlen, ht⟩ := ih (i + 1) t hb
        obtain ⟨hlt, hgc⟩ := List.get?_eq_some.mp hc
        have hi5 : i < 5 := by simpa [CATEGORIES] using hlt
        constructor
        · right
          rcases hlen with hnil | hle
          · subst hnil; simp only [List.length_cons, List.length_nil]; omega
          · simp only [List.length_cons]; omega
        · have hcD : c = CATEGORIES.getD i "" := by
            rw [List.getD_eq_getElem CATEGORIES "" hlt]
            have hx : CATEGORIES[i] = c := by
              simpa [List.get_eq_getElem] using hgc
            exact hx.symm
          rw [List.length_cons, List.range_succ_eq_map, List.map_cons,
            List.map_map]
          congr 1
          · simp [hcD]
          · rw [ht]
            apply List.map_congr_left
            intro j hj
            have hidx : i + (j + 1) = i + 1 + j := by omega
            simp [Function.comp, Nat.succ_eq_add_one, hidx,
              List.getD_cons_succ]

/-- Inversion of a successful `classifyFromPreds`. -/
theorem classifyFromPreds_success_inv {row : List ℚ} {c : String} {conf : ℚ}
    {all : List Pred} (h : classifyFromPreds row = .success c conf all) :
    ∃ k, npArgmax row = some k ∧ conf = row.getD k 0 ∧
      CATEGORIES.get? k = some c ∧ buildAllPredictions 0 row = .ok all := by
  unfold classifyFromPreds at h
  cases ha : npArgmax row with
  | none => rw [ha] at h; cases h
  | some k =>
    rw [ha] at h
    simp only at h
    cases hc : CATEGORIES.get? k with
    | none => rw [hc] at h; cases h
    | some topCat =>
      rw [hc] at h
      cases hb : buildAllPredictions 0 row with
      | error e => rw [hb] at h; cases h
      | ok a =>
        rw [hb] at h
        cases h
        exact ⟨k, rfl, rfl, hc, rfl⟩

theorem getD_mem_of_lt {row : List ℚ} {j : Nat} (hj : j < row.length) :
    row.getD j 0 ∈ row := by
  rw [List.getD_eq_getElem _ _ hj]
  exact List.getElem_mem hj

theorem categories_get?_getD {k : Nat} {c : String}
    (h : CATEGORIES.get? k = some c) : k < 5 ∧ CATEGORIES.getD k "" = c := by
  obtain ⟨hlt, hgc⟩ := List.get?_eq_some.mp h
  refine ⟨by simpa [CATEGORIES] using hlt, ?_⟩
  rw [List.getD_eq_getElem CATEGORIES "" hlt]
  simpa [List.get_eq_getElem] using hgc

theorem categories_getD_inj :
    ∀ j < 5, ∀ k < 5, CATEGORIES.getD j "" = CATEGORIES.getD k "" → j = k := by
  decide

theorem build_length {row : List ℚ} {all : List Pred}
    (hb : buildAllPredictions 0 row = .ok all) :
    all.length = row.length ∧ row.length ≤ 5 := by
  obtain ⟨hlen, hmap⟩ := buildAllPredictions_ok 0 row all hb
  constructor
  · rw [hmap]; simp
  · rcases hlen with hnil | hle
    · subst hnil; simp
    · omega

theorem mem_of_build {row : List ℚ} {all : List Pred}
    (hb : buildAllPredictions 0 row = .ok all) {e : Pred} (he : e ∈ all) :
    ∃ j, j < row.length ∧ e = Pred.mk (CATEGORIES.getD j "") (row.getD j 0) := by
  obtain ⟨_, hmap⟩ := buildAllPredictions_ok 0 row all hb
  rw [hmap] at he
  obtain ⟨j, hj, hje⟩ := List.mem_map.mp he
  exact ⟨j, List.mem_range.mp hj, by simpa using hje.symm⟩

theorem build_mem {row : List ℚ} {all : List Pred}
    (hb : buildAllPredictions 0 row = .ok all) {k : Nat} (hk : k < row.length) :
    Pred.mk (CATEGORIES.getD k "") (row.getD k 0) ∈ all := by
  obtain ⟨_, hmap⟩ := buildAllPredictions_ok 0 row all hb
  rw [hmap]
  apply List.mem_map.mpr
  exact ⟨k, List.mem_range.mpr hk, by simp⟩

/-! ## Claim theorems -/

/-- C1: for every successful classification, the top-level `category` is
`CATEGORIES[np.argmax(predictions[0])]`, and the (unique) entry of
`all_predictions` whose category matches it has maximal confidence: no
entry has a strictly greater confidence. -/
theorem c1_category_is_argmax {row : List ℚ} {c : String} {conf : ℚ}
    {all : List Pred} (h : classifyFromPreds row = .success c conf all) :
    (∃ k, npArgmax row = some k ∧ CATEGORIES.get? k = some c) ∧
    ∃ e, e ∈ all ∧ e.category = c ∧
      (∀ p, p ∈ all → p.confidence ≤ e.confidence) ∧
      (∀ p, p ∈ all → p.category = c → p = e) := by
  obtain ⟨k, ha, hconf, hc, hb⟩ := classifyFromPreds_success_inv h
  obtain ⟨hklt, hmax, _⟩ := npArgmax_spec ha
  obtain ⟨hk5, hcD⟩ := categories_get?_getD hc
  obtain ⟨hlen, hle5⟩ := build_length hb
  refine ⟨⟨k, ha, hc⟩, ⟨Pred.mk (CATEGORIES.getD k "") (row.getD k 0),
    build_mem hb hklt, hcD, ?_, ?_⟩⟩
  · intro p hp
    obtain ⟨j, hj, hpe⟩ := mem_of_build hb hp
    rw [hpe]
    exact hmax j hj
  · intro p hp hpc
    obtain ⟨j, hj, hpe⟩ := mem_of_build hb hp
    have hj5 : j < 5 := lt_of_lt_of_le hj hle5
    have hjc : CATEGORIES.getD j "" = CATEGORIES.getD k "" := by
      rw [hcD]
      rw [hpe] at hpc
      exact hpc
    have hjk : j = k := categories_getD_inj j hj5 k hk5 hjc
    rw [hpe, hjk]

/-- C2 (amended): for every successful classification, the length of
`all_predictions` equals the length of the model's prediction row
`predictions[0]`, which is at most 5; it equals 5 exactly when the model
outputs 5 confidences, not for every loaded model. -/
theorem c2_all_predictions_length {row : List ℚ} {c : String} {conf : ℚ}
    {all : List Pred} (h : classifyFromPreds row = .success c conf all) :
    all.length = row.length ∧ row.length ≤ 5 := by
  obtain ⟨k, _, _, _, hb⟩ := classifyFromPreds_success_inv h
  exact build_length hb

/-- C7: if every confidence the model outputs lies in `[0, 1]` (a valid
softmax model), then every confidence in `all_predictions`, and the
top-level `confidence`, lies in `[0, 1]`: `classify` passes the scores
through unchanged. -/
theorem c7_confidences_in_unit_interval {row : List ℚ} {c : String}
    {conf : ℚ} {all : List Pred} (hrange : ∀ x, x ∈ row → 0 ≤ x ∧ x ≤ 1)
    (h : classifyFromPreds row = .success c conf all) :
    (0 ≤ conf ∧ conf ≤ 1) ∧
    ∀ p, p ∈ all → 0 ≤ p.confidence ∧ p.confidence ≤ 1 := by
  obtain ⟨k, ha, hconf, _, hb⟩ := classifyFromPreds_success_inv h
  obtain ⟨hklt, _, _⟩ := npArgmax_spec ha
  constructor
  · rw [hconf]
    exact hrange _ (getD_mem_of_lt hklt)
  · intro p hp
    obtain ⟨j, hj, hpe⟩ := mem_of_build hb hp
    rw [hpe]
    exact hrange _ (getD_mem_of_lt hj)

/-- C9: for every successful classification, the top-level `confidence`
equals the confidence of every `all_predictions` entry whose category
equals the top-level `category`, and such an entry exists. -/
theorem c9_confidence_matches_category_entry {row : List ℚ} {c : String}
    {conf : ℚ} {all : List Pred}
    (h : classifyFromPreds row = .success c conf all) :
    (∃ e, e ∈ all ∧ e.category = c ∧ e.confidence = conf) ∧
    ∀ e, e ∈ all → e.category = c → e.confidence = conf := by
  obtain ⟨k, ha, hconf, hc, hb⟩ := classifyFromPreds_success_inv h
  obtain ⟨hklt, _, _⟩ := npArgmax_spec ha
  obtain ⟨hk5, hcD⟩ := categories_get?_getD hc
  obtain ⟨_, hle5⟩ := build_length hb
  refine ⟨⟨Pred.mk (CATEGORIES.getD k "") (row.getD k 0),
    build_mem hb hklt, hcD, hconf.symm⟩, ?_⟩
  intro e he hec
  obtain ⟨j, hj, hpe⟩ := mem_of_build hb he
  have hj5 : j < 5 := lt_of_lt_of_le hj hle5
  have hjc : CATEGORIES.getD j "" = CATEGORIES.getD k "" := by
    rw [hcD]
    rw [hpe] at hec
    exact hec
  have hjk : j = k := categories_getD_inj j hj5 k hk5 hjc
  rw [hpe, hjk]
  exact hconf.symm

/-- C10: result construction from a fixed prediction row is
deterministic (equal rows give equal results), and on ties the reported
category is the one at the first maximal index: the winning index `k`
satisfies `row[j] < row[k]` for every `j < k`. -/
theorem c10_deterministic_first_max (row row2 : List ℚ) (h2 : row2 = row)
    {c : String} {conf : ℚ} {all : List Pred}
    (h : classifyFromPreds row = .success c conf all) :
    classifyFromPreds row2 = classifyFromPreds row ∧
    ∃ k, k < row.length ∧ CATEGORIES.getD k "" = c ∧ row.getD k 0 = conf ∧
      (∀ j, j < row.length → row.getD j 0 ≤ row.getD k 0) ∧
      (∀ j, j < k → row.getD j 0 < row.getD k 0) := by
  obtain ⟨k, ha, hconf, hc, _⟩ := classifyFromPreds_success_inv h
  obtain ⟨hklt, hmax, hfirst⟩ := npArgmax_spec ha
  obtain ⟨_, hcD⟩ := categories_get?_getD hc
  exact ⟨by rw [h2], k, hklt, hcD, hconf.symm, hmax, hfirst⟩

/-- C3: with exactly two command-line arguments and a model path that
does not exist, `main` prints exactly the JSON object
`{"success": false, "error": "Model not found: <model_path>"}` and
returns with an empty external-call trace: the model is not loaded and
the image path is never touched. -/
theorem c3_missing_model {Model : Type} (w : World Model) (s mp ip : String)
    (h : w.pathExists mp = false) :
    main [s, mp, ip] w =
      (.printed (.json (.failure ("Model not found: " ++ mp))), []) := by
  simp [main, h]

/-- C4: with exactly two command-line arguments, an existing model path
and a missing image path, `main` prints exactly the JSON object
`{"success": false, "error": "Image not found: <image_path>"}` and
returns with an empty external-call trace: the model is not loaded and
no inference runs. -/
theorem c4_missing_image {Model : Type} (w : World Model) (s mp ip : String)
    (hm : w.pathExists mp = true) (hi : w.pathExists ip = false) :
    main [s, mp, ip] w =
      (.printed (.json (.failure ("Image not found: " ++ ip))), []) := by
  simp [main, hm, hi]

/-- C5: `classify` never propagates an exception: whatever the world
does, its result is a plain record, a `success` or a `failure`; and when
preprocessing or inference raises with message `e`, the result is
exactly `{"success": false, "error": e}`. -/
theorem c5_classify_catches_exceptions {Model : Type} (w : World Model)
    (m : Model) (p : String) :
    (∀ e, preprocess_image w p = .error e → (classify w m p).1 = .failure e) ∧
    (∀ t e, preprocess_image w p = .ok t → w.predict m t = .error e →
      (classify w m p).1 = .failure e) ∧
    ((∃ msg, (classify w m p).1 = .failure msg) ∨
      ∃ c conf all, (classify w m p).1 = .success c conf all) := by
  refine ⟨?_, ?_, ?_⟩
  · intro e he
    simp [classify, he]
  · intro t e ht hp
    simp [classify, ht, hp]
  · cases hr : (classify w m p).1 with
    | success c conf all => exact Or.inr ⟨c, conf, all, rfl⟩
    | failure msg => exact Or.inl ⟨msg, rfl⟩

/-- C6: whenever `preprocess_image` succeeds, the returned tensor has a
leading batch dimension over a 224×224×3 image (enforced by its type)
and every element is the corresponding raw 8-bit pixel value divided by
255.0, hence lies in `[0, 1]`. -/
theorem c6_preprocess_normalizes {Model : Type} (w : World Model)
    (p : String) (t : Tensor) (h : preprocess_image w p = .ok t) :
    ∃ img, w.loadImg p = .ok img ∧
      ∀ (b : Fin 1) (r : Fin 224) (col : Fin 224) (ch : Fin 3),
        t b r col ch = (img r col ch : ℚ) / 255 ∧
        0 ≤ t b r col ch ∧ t b r col ch ≤ 1 := by
  unfold preprocess_image at h
  cases hl : w.loadImg p with
  | error e => rw [hl] at h; cases h
  | ok img =>
    rw [hl] at h
    simp only [Except.map] at h
    cases h
    refine ⟨img, rfl, ?_⟩
    intro b r col ch
    have hval : ((img r col ch : ℕ) : ℚ) ≤ 255 := by
      exact_mod_cast Fin.is_le (img r col ch)
    have hnn : (0 : ℚ) ≤ ((img r col ch : ℕ) : ℚ) := Nat.cast_nonneg _
    refine ⟨rfl, ?_, ?_⟩
    · show (0 : ℚ) ≤ (img r col ch : ℚ) / 255
      exact div_nonneg hnn (by norm_num)
    · show (img r col ch : ℚ) / 255 ≤ 1
      rw [div_le_one (by norm_num)]
      exact hval

/-- C8 (amended): every invocation of `main` either prints a single line
(the usage message, or a JSON object with field `success` plus
`category`/`confidence`/`all_predictions` on success or `error` on
failure) and returns normally, or — when both precondition checks pass
but `WasteClassifier(model_path)` raises — the exception propagates
uncaught, since the constructor call sits outside any `try`/`except`. -/
theorem c8_single_line_or_constructor_crash {Model : Type}
    (argv : List String) (w : World Model) :
    (∃ l, (main argv w).1 = .printed l) ∨
    (∃ e, w.loadModel (argv.getD 1 "") = .error e ∧
      (main argv w).1 = .crashed e) := by
  by_cases h3 : argv.length ≠ 3
  · exact Or.inl ⟨Line.usage, by simp [main, h3]⟩
  · obtain ⟨a, b, c, rfl⟩ := List.length_eq_three.mp (not_not.mp h3)
    by_cases hm : w.pathExists b
    · by_cases hi : w.pathExists c
      · cases hl : w.loadModel b with
        | error e =>
          exact Or.inr ⟨e, hl, by simp [main, hm, hi, hl]⟩
        | ok m =>
          exact Or.inl ⟨.json (classify w m c).1,
            by simp [main, hm, hi, hl]⟩
      · exact Or.inl ⟨.json (.failure ("Image not found: " ++ c)),
          by simp [main, hm, hi]⟩
    · exact Or.inl ⟨.json (.failure ("Model not found: " ++ b)),
        by simp [main, hm]⟩

/-! ## Concrete worlds for witnesses and counterexamples -/

/-- A world where no path exists. -/
def absentWorld : World Unit :=
  ⟨fun _ => false, fun _ => .ok (), fun _ => .ok (fun _ _ _ => 0),
   fun _ _ => .ok [[1]]⟩

/-- A world where only `"model.h5"` exists. -/
def modelOnlyWorld : World Unit :=
  ⟨fun s => s == "model.h5", fun _ => .ok (), fun _ => .ok (fun _ _ _ => 0),
   fun _ _ => .ok [[1]]⟩

/-- A world where both paths exist but `load_model` raises: the model
file is corrupt. -/
def corruptModelWorld : World Unit :=
  ⟨fun _ => true, fun _ => .error "bad model file",
   fun _ => .ok (fun _ _ _ => 0), fun _ _ => .ok [[1]]⟩

/-- A world where loading the image raises. -/
def imgErrorWorld : World Unit :=
  ⟨fun _ => true, fun _ => .ok (), fun _ => .error "cannot identify image file",
   fun _ _ => .ok [[1]]⟩

/-- A mid-gray image: every pixel channel is 128. -/
def grayImg : Img := fun _ _ _ => ⟨128, by omega⟩

/-- A world where everything succeeds and the image is `grayImg`. -/
def grayImgWorld : World Unit :=
  ⟨fun _ => true, fun _ => .ok (), fun _ => .ok grayImg, fun _ _ => .ok [[1]]⟩

/-- A world whose loaded model outputs a single confidence, so the
prediction row `predictions[0]` has length 1. -/
def oneClassWorld : World Unit :=
  ⟨fun _ => true, fun _ => .ok (), fun _ => .ok grayImg,
   fun _ _ => .ok [[(1 : ℚ)]]⟩

/-- Whether an outcome printed a line (as opposed to an uncaught
exception propagating out of `main`). -/
def Outcome.isPrinted : Outcome → Bool
  | .printed _ => true
  | .crashed _ => false

/-! ## Witnesses and counterexamples -/

/-- Witness for C1 at the row `[1, 2]`. -/
theorem c1_witness :
    classifyFromPreds [(1 : ℚ), 2] =
      .success "Glass" 2 [⟨"Paper", 1⟩, ⟨"Glass", 2⟩] ∧
    ((∃ k, npArgmax [(1 : ℚ), 2] = some k ∧ CATEGORIES.get? k = some "Glass") ∧
      ∃ e, e ∈ [Pred.mk "Paper" 1, Pred.mk "Glass" 2] ∧ e.category = "Glass" ∧
        (∀ p, p ∈ [Pred.mk "Paper" 1, Pred.mk "Glass" 2] →
          p.confidence ≤ e.confidence) ∧
        (∀ p, p ∈ [Pred.mk "Paper" 1, Pred.mk "Glass" 2] →
          p.category = "Glass" → p = e)) :=
  ⟨by decide, @c1_category_is_argmax [(1 : ℚ), 2] "Glass" 2
    [⟨"Paper", 1⟩, ⟨"Glass", 2⟩] (by decide)⟩

/-- C2 counterexample: a loaded model that outputs a single confidence
gives a successful classification whose `all_predictions` has 1 entry,
not 5, refuting "equals 5 regardless of the loaded model". -/
theorem c2_counterexample :
    (main ["waste_classifier.py", "model.h5", "img.jpg"] oneClassWorld).1 =
      .printed (.json (.success "Paper" 1 [⟨"Paper", 1⟩])) ∧
    [Pred.mk "Paper" 1].length ≠ 5 :=
  ⟨by decide, by decide⟩

/-- Witness for the amended C2 at the row `[1, 2]`. -/
theorem c2_witness :
    classifyFromPreds [(1 : ℚ), 2] =
      .success "Glass" 2 [⟨"Paper", 1⟩, ⟨"Glass", 2⟩] ∧
    ([Pred.mk "Paper" 1, Pred.mk "Glass" 2].length = [(1 : ℚ), 2].length ∧
      [(1 : ℚ), 2].length ≤ 5) :=
  ⟨by decide, @c2_all_predictions_length [(1 : ℚ), 2] "Glass" 2
    [⟨"Paper", 1⟩, ⟨"Glass", 2⟩] (by decide)⟩

/-- Witness for C3: a world with no files. -/
theorem c3_witness :
    absentWorld.pathExists "model.h5" = false ∧
    main ["waste_classifier.py", "model.h5", "img.jpg"] absentWorld =
      (.printed (.json (.failure ("Model not found: " ++ "model.h5"))), []) :=
  ⟨rfl,
    c3_missing_model absentWorld "waste_classifier.py" "model.h5" "img.jpg" rfl⟩

/-- Witness for C4: the model file exists, the image does not. -/
theorem c4_witness :
    modelOnlyWorld.pathExists "model.h5" = true ∧
    modelOnlyWorld.pathExists "img.jpg" = false ∧
    main ["waste_classifier.py", "model.h5", "img.jpg"] modelOnlyWorld =
      (.printed (.json (.failure ("Image not found: " ++ "img.jpg"))), []) :=
  ⟨by decide, by decide,
    c4_missing_image modelOnlyWorld "waste_classifier.py" "model.h5" "img.jpg"
      (by decide) (by decide)⟩

/-- Witness for C5: image loading raises and `classify` reports the
message as a failure record. -/
theorem c5_witness :
    preprocess_image imgErrorWorld "img.jpg" =
      .error "cannot identify image file" ∧
    (classify imgErrorWorld () "img.jpg").1 =
      .failure "cannot identify image file" :=
  ⟨rfl, (c5_classify_catches_exceptions imgErrorWorld () "img.jpg").1
    "cannot identify image file" rfl⟩

/-- Witness for C6 at the mid-gray image. -/
theorem c6_witness :
    preprocess_image grayImgWorld "img.jpg" = .ok (preprocessTensor grayImg) ∧
    (∃ img, grayImgWorld.loadImg "img.jpg" = .ok img ∧
      ∀ (b : Fin 1) (r : Fin 224) (col : Fin 224) (ch : Fin 3),
        preprocessTensor grayImg b r col ch = (img r col ch : ℚ) / 255 ∧
        0 ≤ preprocessTensor grayImg b r col ch ∧
        preprocessTensor grayImg b r col ch ≤ 1) :=
  ⟨rfl, c6_preprocess_normalizes grayImgWorld "img.jpg"
    (preprocessTensor grayImg) rfl⟩

/-- Witness for C7 at the row `[0, 1]`, whose entries lie in `[0, 1]`. -/
theorem c7_witness :
    (∀ x, x ∈ [(0 : ℚ), 1] → 0 ≤ x ∧ x ≤ 1) ∧
    classifyFromPreds [(0 : ℚ), 1] =
      .success "Glass" 1 [⟨"Paper", 0⟩, ⟨"Glass", 1⟩] ∧
    ((0 ≤ (1 : ℚ) ∧ (1 : ℚ) ≤ 1) ∧
      ∀ p, p ∈ [Pred.mk "Paper" 0, Pred.mk "Glass" 1] →
        0 ≤ p.confidence ∧ p.confidence ≤ 1) :=
  ⟨by decide, by decide,
    @c7_confidences_in_unit_interval [(0 : ℚ), 1] "Glass" 1
      [⟨"Paper", 0⟩, ⟨"Glass", 1⟩] (by decide) (by decide)⟩

/-- C8 counterexample: both files exist but the model file is corrupt,
so `WasteClassifier(model_path)` raises outside any `try`/`except`:
nothing is printed and the invocation does not return normally. -/
theorem c8_counterexample :
    (main ["waste_classifier.py", "model.h5", "img.jpg"] corruptModelWorld).1 =
      .crashed "bad model file" ∧
    Outcome.isPrinted
      (main ["waste_classifier.py", "model.h5", "img.jpg"] corruptModelWorld).1 =
      false :=
  ⟨rfl, rfl⟩

/-- Witness for C9 at the row `[1, 2]`. -/
theorem c9_witness :
    classifyFromPreds [(1 : ℚ), 2] =
      .success "Glass" 2 [⟨"Paper", 1⟩, ⟨"Glass", 2⟩] ∧
    ((∃ e, e ∈ [Pred.mk "Paper" 1, Pred.mk "Glass" 2] ∧
        e.category = "Glass" ∧ e.confidence = 2) ∧
      ∀ e, e ∈ [Pred.mk "Paper" 1, Pred.mk "Glass" 2] →
        e.category = "Glass" → e.confidence = 2) :=
  ⟨by decide, @c9_confidence_matches_category_entry [(1 : ℚ), 2] "Glass" 2
    [⟨"Paper", 1⟩, ⟨"Glass", 2⟩] (by decide)⟩

/-- Witness for C10 at the tied row `[1, 2, 2]`: the maximum 2 occurs at
indices 1 and 2 and the reported category is `CATEGORIES[1] = "Glass"`. -/
theorem c10_witness :
    classifyFromPreds [(1 : ℚ), 2, 2] =
      .success "Glass" 2 [⟨"Paper", 1⟩, ⟨"Glass", 2⟩, ⟨"Metal", 2⟩] ∧
    (classifyFromPreds [(1 : ℚ), 2, 2] = classifyFromPreds [(1 : ℚ), 2, 2] ∧
      ∃ k, k < [(1 : ℚ), 2, 2].length ∧ CATEGORIES.getD k "" = "Glass" ∧
        [(1 : ℚ), 2, 2].getD k 0 = 2 ∧
        (∀ j, j < [(1 : ℚ), 2, 2].length →
          [(1 : ℚ), 2, 2].getD j 0 ≤ [(1 : ℚ), 2, 2].getD k 0) ∧
        (∀ j, j < k → [(1 : ℚ), 2, 2].getD j 0 < [(1 : ℚ), 2, 2].getD k 0)) :=
  ⟨by decide,
    @c10_deterministic_first_max [(1 : ℚ), 2, 2] [(1 : ℚ), 2, 2] rfl "Glass" 2
      [⟨"Paper", 1⟩, ⟨"Glass", 2⟩, ⟨"Metal", 2⟩] (by decide)⟩

end WasteClassifierSpec
